import Mathlib

/-!
Verification development for a PuTTY-like duplex terminal bridge
(`putty-like.py`): a shallow embedding of its transport layer
(`SockWrapper.read`, the telnet negotiation loop), its inbound display
normalization (`read_serial`), its key decoding table (`get_char`) and the
outbound action handling of `main`, together with theorems settling the
testable properties stated by the specification.

Bytes are modelled as `Nat` (values 0..255); byte strings as `List Nat`.
Socket sends performed by the negotiation engine are modelled as a pure
list of sent messages (each a `List Nat`), in the order they are sent.
-/

/-- Reply policy of `SockWrapper.read` for a complete 3-byte negotiation
command `IAC cmd opt` (source lines 189-203): DO(1|3) answers WILL(opt),
DO(other) answers WONT(opt); WILL(3) answers DO(3), WILL(other) answers
DONT(opt); DONT(opt) answers WONT(opt); WONT(opt) answers nothing.
Returns the list of messages sent (zero or one). -/
def replyFor (cmd opt : Nat) : List (List Nat) :=
  if cmd = 253 then
    if opt = 1 ∨ opt = 3 then [[255, 251, opt]] else [[255, 252, opt]]
  else if cmd = 251 then
    if opt = 3 then [[255, 253, opt]] else [[255, 254, opt]]
  else if cmd = 254 then [[255, 252, opt]]
  else []

/-- Index search of the subnegotiation branch (source lines 209-214): the
first position `i` in `l` such that `l` has 255 at `i` and 240 at `i+1`,
or `none`. This mirrors the `for i in range(2, len(buf)-1)` scan with `l`
standing for `buf[2:]`. -/
def findSE : List Nat → Option Nat
  | [] => none
  | [_] => none
  | a :: b :: rest =>
    if a = 255 ∧ b = 240 then some 0
    else (findSE (b :: rest)).map (fun i => i + 1)

/-- The `while len(out) < size and self._buf` loop of `SockWrapper.read`
in telnet mode (source lines 164-226). `buf` is `self._buf` after the
`recv` data has been appended; `k` is the remaining output capacity
(`size - len(out)`). Returns `(out, replies, remaining buffer)` where
`replies` lists the messages passed to `sock.send` in order. Every
branch mirrors one branch of the source:
data byte, escaped literal 255, two-byte simple command (241-249),
DO/DONT/WILL/WONT with option byte, the fall-through when the option
byte is absent (the `len >= 3` guard fails and the final unknown-IAC
branch drops only the marker), subnegotiation with and without a
terminator, lone SE, and the unknown-IAC fallback. -/
def readLoop (buf : List Nat) (k : Nat) : List Nat × List (List Nat) × List Nat :=
  if k = 0 then ([], [], buf)
  else
    match buf with
    | [] => ([], [], [])
    | b0 :: rest =>
      if b0 ≠ 255 then
        ((b0 :: (readLoop rest (k - 1)).1, (readLoop rest (k - 1)).2.1,
          (readLoop rest (k - 1)).2.2))
      else
        match rest with
        | [] => ([], [], buf)
        | cmd :: rest2 =>
          if cmd = 255 then
            ((255 :: (readLoop rest2 (k - 1)).1, (readLoop rest2 (k - 1)).2.1,
              (readLoop rest2 (k - 1)).2.2))
          else if 241 ≤ cmd ∧ cmd ≤ 249 then
            readLoop rest2 k
          else if cmd = 253 ∨ cmd = 254 ∨ cmd = 251 ∨ cmd = 252 then
            match rest2 with
            | [] => readLoop [cmd] k
            | opt :: rest3 =>
              (((readLoop rest3 k).1,
                replyFor cmd opt ++ (readLoop rest3 k).2.1,
                (readLoop rest3 k).2.2))
          else if cmd = 250 then
            match findSE rest2 with
            | some i => readLoop (rest2.drop (i + 2)) k
            | none => ([], [], buf)
          else if cmd = 240 then
            readLoop rest2 k
          else
            readLoop (cmd :: rest2) k
termination_by buf.length
decreasing_by
  all_goals simp [List.length_drop]
  all_goals omega

/-- One `read(size)` call of the negotiating transport: the freshly
received chunk is appended to the pending buffer (source line 163) and
the stripping loop runs. -/
def sockRead (buf chunk : List Nat) (size : Nat) :
    List Nat × List (List Nat) × List Nat :=
  readLoop (buf ++ chunk) size

/-- Inbound display normalization of `read_serial` in telnet mode
(source lines 46-53): a line feed becomes CR LF, a carriage return is
dropped, everything else passes through. -/
def normalizeNewlines : List Nat → List Nat
  | [] => []
  | b :: rest =>
    (if b = 10 then [13, 10] else if b = 13 then [] else [b]) ++
      normalizeNewlines rest

/-- Restatement of the normalization exactly as the specification words it
(every line feed replaced by CR LF, every carriage return dropped), used to
compare the loop taken from the source against the description in the spec. -/
def specNormalize (l : List Nat) : List Nat :=
  l.flatMap (fun b => if b = 10 then [13, 10] else if b = 13 then [] else [b])

/-- A byte list with no two consecutive 255 bytes, i.e. raw input containing
no escaped-literal-marker pair. -/
def noDouble : List Nat → Bool
  | [] => true
  | [_] => true
  | a :: b :: rest => (!(a == 255 && b == 255)) && noDouble (b :: rest)

/-- Buffer contents on which the stripping loop legitimately waits for more
bytes: a lone marker byte, or a subnegotiation whose IAC SE terminator has
not arrived yet. These are exactly the `break` cases of the source loop. -/
def isIncomplete : List Nat → Bool
  | [255] => true
  | 255 :: 250 :: rest => (findSE rest).isNone
  | _ => false

/-- Bytes written on the Enter key (source lines 258 and 272-277): telnet
mode fixes the ending to CR; serial mode maps the `lineending` argument
CR to 0x0D, CRLF to 0x0D 0x0A, anything else to 0x0A. -/
def line_ending_bytes (telnet : Bool) (lineending : String) : List Nat :=
  if telnet then [13]
  else if lineending = "CR" then [13]
  else if lineending = "CRLF" then [13, 10]
  else [10]

/-- The `ch.encode` step with the ascii codec and the ignore error mode in
the main loop (source line
323): code points at or above 128 are silently dropped. -/
def encode_ascii_ignore (ch : List Nat) : List Nat :=
  ch.filter (fun b => b < 128)

/-- One iteration of the outbound loop of `main` (source lines 306-324) on
a decoded character `ch` (a list of code points, since extended keys decode
to whole escape strings). Returns the list of Transport write calls (each a
byte payload) and the bytes appended to the local display: backspace writes
0x08 and erases locally; Enter writes the configured line ending and echoes
a newline only in serial mode; any other character is ASCII-encoded with
non-ASCII dropped and written, with no local echo. -/
def handleChar (telnet : Bool) (le : List Nat) (ch : List Nat) :
    List (List Nat) × List Nat :=
  if ch = [127] ∨ ch = [8] then ([[8]], [8, 32, 8])
  else if ch = [10] then ([le], if telnet then [] else [10])
  else ([encode_ascii_ignore ch], [])

/-- The fixed extended-key lookup table of `get_char` (source lines 86-110),
mapping Windows scan codes to ANSI escape sequences, given as code points. -/
def ext_map : List (Nat × List Nat) :=
  [(59, [27, 79, 80]), (60, [27, 79, 81]), (61, [27, 79, 82]),
   (62, [27, 79, 83]), (63, [27, 91, 49, 53, 126]), (64, [27, 91, 49, 55, 126]),
   (65, [27, 91, 49, 56, 126]), (66, [27, 91, 49, 57, 126]),
   (67, [27, 91, 50, 48, 126]), (68, [27, 91, 50, 49, 126]),
   (133, [27, 91, 50, 51, 126]), (134, [27, 91, 50, 52, 126]),
   (72, [27, 91, 65]), (80, [27, 91, 66]), (75, [27, 91, 68]),
   (77, [27, 91, 67]), (71, [27, 91, 49, 126]), (79, [27, 91, 52, 126]),
   (73, [27, 91, 53, 126]), (81, [27, 91, 54, 126]),
   (82, [27, 91, 50, 126]), (83, [27, 91, 51, 126])]

/-- Extended-key decoding of `get_char` (source lines 111-114): a scan code
found in the table yields its escape sequence; an unmapped scan code yields
the empty string. -/
def get_char_ext (code : Nat) : List Nat :=
  match (ext_map.find? (fun p => p.1 == code)).map Prod.snd with
  | some seq => seq
  | none => []

/-- The stripping loop never grows the pending buffer: the leftover buffer
is never longer than the buffer it started from. -/
theorem readLoop_rem_le (buf : List Nat) (k : Nat) :
    ((readLoop buf k).2.2).length ≤ buf.length := by
  induction buf, k using readLoop.induct with
  | _ =>
    rw [readLoop.eq_def]
    simp_all [List.length_drop]
    all_goals first
    | omega
    | (split <;> (try simp_all) <;> omega)

/-- The stripping loop emits at most as many data bytes as the remaining
capacity it was given. -/
theorem readLoop_out_le (buf : List Nat) (k : Nat) :
    ((readLoop buf k).1).length ≤ k := by
  induction buf, k using readLoop.induct with
  | _ =>
    rw [readLoop.eq_def]
    simp_all [List.length_drop]
    all_goals first
    | omega
    | (split <;> (try simp_all) <;> omega)

/-- On input containing no marker byte and fitting within the capacity, the
stripping loop is the identity: all bytes pass through as data, no reply is
sent and the buffer is fully drained. -/
theorem readLoop_no_marker (l : List Nat) (k : Nat) (h255 : 255 ∉ l)
    (hlen : l.length ≤ k) : readLoop l k = (l, [], []) := by
  induction l generalizing k with
  | nil =>
    rw [readLoop.eq_def]
    split <;> rfl
  | cons b rest ih =>
    have hk : ¬ k = 0 := by simp at hlen; omega
    have hb : b ≠ 255 := by simp at h255; tauto
    have hrest : 255 ∉ rest := by simp at h255; tauto
    have hlen2 : rest.length ≤ k - 1 := by simp at hlen; omega
    rw [readLoop.eq_def]
    simp [hk, hb, ih (k - 1) hrest hlen2]

/-- The display normalization distributes over concatenation of chunks. -/
theorem normalizeNewlines_append (a b : List Nat) :
    normalizeNewlines (a ++ b) = normalizeNewlines a ++ normalizeNewlines b := by
  induction a with
  | nil => simp [normalizeNewlines]
  | cons x rest ih => simp [normalizeNewlines, ih]

/-- The normalization loop of the source computes exactly the transformation the
specification describes. -/
theorem normalizeNewlines_eq_spec (l : List Nat) :
    normalizeNewlines l = specNormalize l := by
  induction l with
  | nil => simp [normalizeNewlines, specNormalize]
  | cons b rest ih => simp [normalizeNewlines, specNormalize, ih]

/-- The display normalization is idempotent: a second pass over already
normalized output changes nothing. -/
theorem normalizeNewlines_idem (l : List Nat) :
    normalizeNewlines (normalizeNewlines l) = normalizeNewlines l := by
  induction l with
  | nil => simp [normalizeNewlines]
  | cons b rest ih =>
    rcases eq_or_ne b 10 with h | h10
    · subst h
      simp [normalizeNewlines, normalizeNewlines_append, ih]
    · rcases eq_or_ne b 13 with h | h13
      · subst h
        simp [normalizeNewlines, ih]
      · simp [normalizeNewlines, normalizeNewlines_append, h10, h13, ih]

/-- Dropping the head of a list keeps it free of consecutive 255 pairs. -/
theorem noDouble_tail (a : Nat) (l : List Nat) (h : noDouble (a :: l) = true) :
    noDouble l = true := by
  cases l with
  | nil => simp [noDouble]
  | cons b rest =>
    simp [noDouble] at h
    simpa [noDouble] using h.2

/-- Dropping any prefix of a list keeps it free of consecutive 255 pairs. -/
theorem noDouble_drop (n : Nat) (l : List Nat) (h : noDouble l = true) :
    noDouble (l.drop n) = true := by
  induction n generalizing l with
  | zero => simpa using h
  | succ n ih =>
    cases l with
    | nil => simp [noDouble]
    | cons a rest => simpa using ih rest (noDouble_tail a rest h)
/-- If the raw input never contains two consecutive marker bytes, no
marker byte ever reaches the data output: every 255 the loop emits comes
from an escaped 255,255 pair. -/
theorem readLoop_noDouble_out (buf : List Nat) (k : Nat) :
    noDouble buf = true → 255 ∉ (readLoop buf k).1 := by
  induction buf, k using readLoop.induct
  case case3 =>
    intro h; rw [readLoop.eq_def]; simp_all [noDouble]
    rename_i ih
    exact ⟨by omega, ih (noDouble_tail _ _ h)⟩
  case case6 =>
    intro h; rw [readLoop.eq_def]; simp_all [noDouble]
    rename_i ih
    exact ih (noDouble_tail _ _ h)
  case case7 =>
    intro h; rw [readLoop.eq_def]; simp_all [noDouble]
    rename_i ih
    split
    · exfalso; omega
    · exact ih
  case case8 =>
    intro h; rw [readLoop.eq_def]; simp_all [noDouble]
    rename_i ih
    split
    · exfalso; omega
    · simpa using ih (noDouble_tail _ _ h)
  case case9 =>
    intro h; rw [readLoop.eq_def]; simp_all [noDouble]
    rename_i ih
    exact ih (noDouble_drop _ _ (noDouble_tail _ _ h))
  case case11 =>
    intro h; rw [readLoop.eq_def]; simp_all [noDouble]
    rename_i ih
    exact ih (noDouble_tail _ _ h)
  case case12 =>
    intro h; rw [readLoop.eq_def]; simp_all [noDouble]
    rename_i ih
    split
    · exfalso; omega
    · exact ih
  all_goals (intro h; rw [readLoop.eq_def]; simp_all [noDouble])

/-- The leftover buffer is strictly shorter than any bound strictly above
the length of the input buffer. -/
theorem rem_lt_of_lt (buf : List Nat) (k n : Nat) (h : buf.length < n) :
    ((readLoop buf k).2.2).length < n :=
  lt_of_le_of_lt (readLoop_rem_le buf k) h

/-- C7: on every pending-buffer content, including malformed, truncated or
unknown marker-prefixed sequences, the stripping loop (a total function in
this embedding, with all indexing guarded, so it cannot raise) either makes
forward progress — the leftover buffer is strictly shorter than the input
buffer, so at least the marker byte of an unrecognized sequence has been
consumed — or leaves the buffer untouched exactly when it is an incomplete
sequence legitimately awaiting more bytes. -/
theorem read_progress_or_incomplete (buf : List Nat) (k : Nat) :
    0 < k → buf ≠ [] →
    ((readLoop buf k).2.2).length < buf.length ∨
    ((readLoop buf k).2.2 = buf ∧ isIncomplete buf = true) := by
  induction buf, k using readLoop.induct
  all_goals intro hk hne
  all_goals rw [readLoop.eq_def]
  all_goals simp_all [isIncomplete]
  all_goals try (left; exact rem_lt_of_lt _ _ _ (by first | omega | (simp only [List.length_drop, List.length_nil, List.length_cons]; omega)))
  all_goals try split
  all_goals try (exfalso; omega)
  all_goals try (left; exact rem_lt_of_lt _ _ _ (by first | omega | (simp only [List.length_drop, List.length_nil, List.length_cons]; omega)))
  all_goals try (exact rem_lt_of_lt _ _ _ (by first | omega | (simp only [List.length_drop, List.length_nil, List.length_cons]; omega)))

/-- Witness for C7 at a concrete unterminated subnegotiation: the buffer
255 250 1 is left in place and recognized as incomplete. -/
theorem read_progress_or_incomplete_witness :
    ((readLoop [255, 250, 1] 1).2.2).length < 3 ∨
    ((readLoop [255, 250, 1] 1).2.2 = [255, 250, 1] ∧
      isIncomplete [255, 250, 1] = true) :=
  read_progress_or_incomplete [255, 250, 1] 1 (by decide) (by decide)

/-- C1 (failing input): the spec requires a DO command whose option byte
has not yet arrived to be retained in the pending buffer, but feeding the
chunk 255 253 alone makes the `len >= 3` guard fail and control falls to
the unknown-IAC branch, which drops the marker and emits 253 as data; the
full chunk 255 253 1 instead yields no data and one WILL(1) reply, so the
two feedings disagree. -/
theorem negotiation_split_do_dropped :
    sockRead [] [255, 253] 16 = ([253], [], []) ∧
    sockRead [] [1] 16 = ([1], [], []) ∧
    sockRead [] [255, 253, 1] 16 = ([], [[255, 251, 1]], []) := by
  refine ⟨?_, ?_, ?_⟩ <;> simp [sockRead, readLoop, replyFor]

/-- C2 (counterexample): a received DONT(1) does send a reply on the
socket, contradicting the claim that DONT receives no reply. -/
theorem dont_sends_reply_cex :
    (readLoop [255, 254, 1] 16).2.1 ≠ [] := by
  simp [readLoop, replyFor]

/-- C2 (amended): a received WONT(option) sends no reply and emits no
display bytes; a received DONT(option) sends exactly one WONT(same option)
reply and emits no display bytes. -/
theorem wont_dont_reply_policy (opt k : Nat) (hk : 0 < k) :
    readLoop [255, 252, opt] k = ([], [], []) ∧
    readLoop [255, 254, opt] k = ([], [[255, 252, opt]], []) := by
  have hk0 : ¬ k = 0 := by omega
  constructor <;> simp [readLoop, replyFor, hk0]

/-- Witness for the amended C2 at option 1 and size 16. -/
theorem wont_dont_reply_policy_witness :
    readLoop [255, 252, 1] 16 = ([], [], []) ∧
    readLoop [255, 254, 1] 16 = ([], [[255, 252, 1]], []) :=
  wont_dont_reply_policy 1 16 (by decide)

/-- C4: a complete DO(option) with option 1 (echo) or 3 (suppress-go-ahead)
yields exactly one WILL(same option) reply and no display bytes; DO of any
other option yields exactly one WONT(same option); WILL(3) yields exactly
one DO(3); WILL of any other option yields exactly one DONT(same option). -/
theorem do_will_reply_policy (opt k : Nat) (hk : 0 < k) :
    ((opt = 1 ∨ opt = 3) →
      readLoop [255, 253, opt] k = ([], [[255, 251, opt]], [])) ∧
    (¬(opt = 1 ∨ opt = 3) →
      readLoop [255, 253, opt] k = ([], [[255, 252, opt]], [])) ∧
    (readLoop [255, 251, 3] k = ([], [[255, 253, 3]], [])) ∧
    (opt ≠ 3 → readLoop [255, 251, opt] k = ([], [[255, 254, opt]], [])) := by
  have hk0 : ¬ k = 0 := by omega
  refine ⟨fun h => ?_, fun h => ?_, ?_, fun h => ?_⟩
  · simp [readLoop, replyFor, hk0, h]
  · simp [readLoop, replyFor, hk0, h]
  · simp [readLoop, replyFor, hk0]
  · simp [readLoop, replyFor, hk0, h]

/-- Witness for C4 at options 1, 5 and 3 with size 16. -/
theorem do_will_reply_policy_witness :
    readLoop [255, 253, 1] 16 = ([], [[255, 251, 1]], []) ∧
    readLoop [255, 253, 5] 16 = ([], [[255, 252, 5]], []) ∧
    readLoop [255, 251, 3] 16 = ([], [[255, 253, 3]], []) ∧
    readLoop [255, 251, 5] 16 = ([], [[255, 254, 5]], []) :=
  ⟨(do_will_reply_policy 1 16 (by decide)).1 (by decide),
   (do_will_reply_policy 5 16 (by decide)).2.1 (by decide),
   (do_will_reply_policy 5 16 (by decide)).2.2.1,
   (do_will_reply_policy 5 16 (by decide)).2.2.2 (by decide)⟩

/-- C5: on marker-free raw input fitting in one call, the inbound pipeline
(stripping loop followed by the display normalization of `read_serial`)
outputs exactly the input with every LF replaced by CR LF and every CR
dropped, as the spec words it, and applying the normalization again to its
own output changes nothing. -/
theorem inbound_pipeline_normalization (l : List Nat) (k : Nat)
    (h255 : 255 ∉ l) (hlen : l.length ≤ k) :
    normalizeNewlines (readLoop l k).1 = specNormalize l ∧
    normalizeNewlines (normalizeNewlines (readLoop l k).1) =
      normalizeNewlines (readLoop l k).1 := by
  rw [readLoop_no_marker l k h255 hlen]
  exact ⟨normalizeNewlines_eq_spec l, normalizeNewlines_idem l⟩

/-- Witness for C5 on the input A LF CR B. -/
theorem inbound_pipeline_normalization_witness :
    normalizeNewlines (readLoop [65, 10, 13, 66] 16).1 =
      specNormalize [65, 10, 13, 66] ∧
    normalizeNewlines (normalizeNewlines (readLoop [65, 10, 13, 66] 16).1) =
      normalizeNewlines (readLoop [65, 10, 13, 66] 16).1 :=
  inbound_pipeline_normalization [65, 10, 13, 66] 16 (by decide) (by decide)

/-- C6: an escaped 255,255 pair at the head of the buffer emits exactly one
literal 255 as data, sends no reply, and parsing continues after the pair —
no command is parsed from it; conversely, input without a 255,255 pair
never puts a 255 in the data output, so every emitted 255 comes from such
a pair. -/
theorem escaped_marker_literal :
    (∀ s k, readLoop (255 :: 255 :: s) (k + 1) =
      (255 :: (readLoop s k).1, (readLoop s k).2.1, (readLoop s k).2.2)) ∧
    (∀ buf k, noDouble buf = true → 255 ∉ (readLoop buf k).1) := by
  constructor
  · intro s k
    rw [readLoop.eq_def]
    simp
  · exact readLoop_noDouble_out

/-- Witness for C6: the pair 255,255 before data 7, and a pair-free input
whose output contains no 255. -/
theorem escaped_marker_literal_witness :
    readLoop [255, 255, 7] 2 =
      (255 :: (readLoop [7] 1).1, (readLoop [7] 1).2.1,
        (readLoop [7] 1).2.2) ∧
    255 ∉ (readLoop [1, 255, 2] 16).1 :=
  ⟨escaped_marker_literal.1 [7] 1,
   escaped_marker_literal.2 [1, 255, 2] 16 (by decide)⟩

/-- C8: a `read(size)` call of the negotiating transport returns at most
`size` data bytes, whatever the pending buffer and incoming chunk hold. -/
theorem read_returns_at_most_size (buf chunk : List Nat) (size : Nat) :
    ((sockRead buf chunk size).1).length ≤ size :=
  readLoop_out_le (buf ++ chunk) size

/-- C3 (counterexample): with the line-ending configuration CRLF, a
SubmitLine in telnet mode does not write 0x0D 0x0A — telnet mode fixes the
line ending to the single byte 0x0D and never consults the configuration. -/
theorem telnet_submit_write_cex :
    (handleChar true (line_ending_bytes true "CRLF") [10]).1 ≠ [[13, 10]] := by
  decide

/-- C3 (amended): with configuration line-ending=CRLF, SubmitLine in
direct (serial) mode produces exactly one write of 0x0D 0x0A and one
newline appended to the display; in negotiating (telnet) mode the line
ending is fixed at the single byte 0x0D whatever the configuration, and
SubmitLine produces exactly one write of 0x0D and zero display appends. -/
theorem submit_line_writes :
    handleChar false (line_ending_bytes false "CRLF") [10] = ([[13, 10]], [10]) ∧
    ∀ cfg : String,
      handleChar true (line_ending_bytes true cfg) [10] = ([[13]], []) := by
  constructor
  · decide
  · intro cfg
    simp [handleChar, line_ending_bytes]

/-- C9: an extended-key scan code absent from the fixed lookup table
decodes to the empty sequence, and the outbound loop then writes zero bytes
to the Transport and nothing to the display. -/
theorem unmapped_key_no_action (code : Nat)
    (h : ext_map.find? (fun p => p.1 == code) = none)
    (telnet : Bool) (le : List Nat) :
    (handleChar telnet le (get_char_ext code)).1.flatten = [] ∧
    (handleChar telnet le (get_char_ext code)).2 = [] := by
  simp [get_char_ext, h, handleChar, encode_ascii_ignore]

/-- Witness for C9 at the unmapped scan code 99. -/
theorem unmapped_key_no_action_witness :
    (handleChar false [10] (get_char_ext 99)).1.flatten = [] ∧
    (handleChar false [10] (get_char_ext 99)).2 = [] :=
  unmapped_key_no_action 99 (by decide) false [10]

/-- C10: an ordinary console character outside the ASCII range is silently
discarded by the `ascii`/`ignore` encoding: the single Transport write
carries zero bytes and nothing goes to the display. -/
theorem non_ascii_char_discarded (c : Nat) (hc : 128 ≤ c)
    (telnet : Bool) (le : List Nat) :
    handleChar telnet le [c] = ([[]], []) := by
  have h3 : ¬ c < 128 := by omega
  simp [handleChar, encode_ascii_ignore, h3]
  have hx : ¬(c = 127 ∨ c = 8) := by omega
  have hy : ¬ c = 10 := by omega
  simp [hx, hy]

/-- Witness for C10 at code point 233. -/
theorem non_ascii_char_discarded_witness :
    handleChar true [13] [233] = ([[]], []) :=
  non_ascii_char_discarded 233 (by decide) true [13]

/-- C6 (counterexample): a 255,255 pair lying inside a subnegotiation span
is discarded together with the whole span and yields no literal 255 in the
data output, so not every occurrence of two consecutive marker bytes in the
raw input produces exactly one literal marker byte. -/
theorem sb_pair_dropped_cex :
    readLoop [255, 250, 255, 255, 255, 240] 16 = ([], [], []) ∧
    (readLoop [255, 250, 255, 255, 255, 240] 16).1.count 255 ≠ 1 := by
  constructor <;> simp [readLoop, findSE]
